import Mathlib

/-!
Verification development for the inspectre RISC-V simulator.

Shallow embedding: machine integers are modelled as `Nat` carrying the u64
bit pattern, with explicit reduction modulo 2^64 or 2^32 where Rust
arithmetic wraps; signed views go through `Int`.  Rust `Vec` becomes
`List`, trait objects become records of operations over an abstract state
type, and fallible or mutating operations return their updated state
explicitly.
-/

/-- Wrap a natural number to the u64 range, as Rust wrapping arithmetic does. -/
def wrap64 (n : Nat) : Nat := n % 2 ^ 64

/-- Bitwise complement of a u64 value (Rust `!m`), valid for `m < 2^64`. -/
def notU64 (m : Nat) : Nat := (2 ^ 64 - 1) ^^^ m

/-- Two-complement signed value of a u64 bit pattern (Rust `as i64`). -/
def toI64 (n : Nat) : Int := if n % 2 ^ 64 < 2 ^ 63 then (n % 2 ^ 64 : Int) else (n % 2 ^ 64 : Int) - 2 ^ 64

/-- Two-complement signed value of the low 32 bits of a u64 (Rust `as i32`). -/
def toI32 (n : Nat) : Int := if n % 2 ^ 32 < 2 ^ 31 then (n % 2 ^ 32 : Int) else (n % 2 ^ 32 : Int) - 2 ^ 32

/-- The u64 bit pattern of an `Int`, wrapping modulo 2^64 (Rust `as u64`). -/
def i64ToU64 (i : Int) : Nat := (i % (2 ^ 64 : Int)).toNat

/-- Sign-extend the low 32 bits of a value to a u64 bit pattern
(Rust `as i32 as i64 as u64`). -/
def sext32 (n : Nat) : Nat :=
  if n % 2 ^ 32 < 2 ^ 31 then n % 2 ^ 32 else n % 2 ^ 32 + (2 ^ 64 - 2 ^ 32)

/-- Wrap an `Int` to an i32 and give its sign-extended u64 bit pattern
(Rust i32 wrapping result `as i64 as u64`). -/
def i32ToU64 (i : Int) : Nat := sext32 (i % (2 ^ 32 : Int)).toNat

/-! ## CLINT device (src/hardware/src/system/devices/clint.rs) -/

/-- CLINT register offsets. -/
def MSIP_OFFSET : Nat := 0x0000

/-- Offset of the 64-bit mtimecmp register. -/
def MTIMECMP_OFFSET : Nat := 0x4000

/-- Offset of the 64-bit mtime register. -/
def MTIME_OFFSET : Nat := 0xBFF8

/-- The CLINT device state (struct Clint). -/
structure Clint where
  base_addr : Nat
  mtime : Nat
  mtimecmp : Nat
  msip : Nat
  divider : Nat
  counter : Nat
deriving Repr

/-- Clint::new. -/
def Clint.new (base_addr divider : Nat) : Clint :=
  { base_addr := base_addr
    mtime := 0
    mtimecmp := 2 ^ 64 - 1
    msip := 0
    divider := if divider = 0 then 1 else divider
    counter := 0 }

/-- Clint::write_u32.  The two `val if val == OFFSET + 4` match arms of the
source bind the pattern variable `val` to the scrutinee (the offset),
shadowing the incoming 32-bit value; the embedded definition reproduces
that faithfully, so the high half is written from the offset. -/
def Clint.write_u32 (c : Clint) (offset : Nat) (v : Nat) : Clint :=
  if offset = MSIP_OFFSET then { c with msip := v &&& 1 }
  else if offset = MTIMECMP_OFFSET then
    { c with mtimecmp := (c.mtimecmp &&& 0xFFFFFFFF00000000) ||| (v % 2 ^ 32) }
  else if offset = MTIMECMP_OFFSET + 4 then
    { c with mtimecmp := wrap64 ((c.mtimecmp &&& 0x00000000FFFFFFFF) ||| (offset <<< 32)) }
  else if offset = MTIME_OFFSET then
    { c with mtime := (c.mtime &&& 0xFFFFFFFF00000000) ||| (v % 2 ^ 32) }
  else if offset = MTIME_OFFSET + 4 then
    { c with mtime := wrap64 ((c.mtime &&& 0x00000000FFFFFFFF) ||| (offset <<< 32)) }
  else c

/-! ## Unaligned access latency (src/crates/hardware/src/core/units/lsu/unaligned.rs) -/

/-- is_aligned: a memory access at addr with size bytes is naturally aligned. -/
def is_aligned (addr size : Nat) : Bool :=
  if size = 0 || size = 1 then true
  else addr &&& (size - 1) == 0

/-- crosses_cache_line: the access begins in one cache line and ends in another. -/
def crosses_cache_line (addr size cache_line_size : Nat) : Bool :=
  if size = 0 then false
  else decide (cache_line_size ≤ (addr &&& (cache_line_size - 1)) + (size - 1))

/-- calculate_unaligned_latency: latency penalty in cycles for an unaligned access. -/
def calculate_unaligned_latency (addr size cache_line_size : Nat) : Nat :=
  if is_aligned addr size then 0
  else if !crosses_cache_line addr size cache_line_size then 1
  else 2

/-! ## Trap taxonomy and trap entry (src/hardware/src/core/cpu.rs) -/

/-- The trap taxonomy (enum Trap in core/types.rs), with the faulting
address or instruction payloads carried as u64 bit patterns. -/
inductive Trap where
  | InstructionAddressMisaligned (a : Nat)
  | InstructionAccessFault (a : Nat)
  | IllegalInstruction (i : Nat)
  | Breakpoint (a : Nat)
  | LoadAddressMisaligned (a : Nat)
  | LoadAccessFault (a : Nat)
  | StoreAddressMisaligned (a : Nat)
  | StoreAccessFault (a : Nat)
  | EnvironmentCallFromUMode
  | EnvironmentCallFromSMode
  | EnvironmentCallFromMMode
  | InstructionPageFault (a : Nat)
  | LoadPageFault (a : Nat)
  | StorePageFault (a : Nat)
  | UserSoftwareInterrupt
  | SupervisorSoftwareInterrupt
  | MachineSoftwareInterrupt
  | SupervisorTimerInterrupt
  | MachineTimerInterrupt
  | ExternalInterrupt
  | RequestedTrap (c : Nat)
deriving DecidableEq, Repr

/-- The `(is_interrupt, code)` encoding at the head of Cpu::trap. -/
def Trap.encode : Trap → Bool × Nat
  | .InstructionAddressMisaligned _ => (false, 0)
  | .InstructionAccessFault _ => (false, 1)
  | .IllegalInstruction _ => (false, 2)
  | .Breakpoint _ => (false, 3)
  | .LoadAddressMisaligned _ => (false, 4)
  | .LoadAccessFault _ => (false, 5)
  | .StoreAddressMisaligned _ => (false, 6)
  | .StoreAccessFault _ => (false, 7)
  | .EnvironmentCallFromUMode => (false, 8)
  | .EnvironmentCallFromSMode => (false, 9)
  | .EnvironmentCallFromMMode => (false, 11)
  | .InstructionPageFault _ => (false, 12)
  | .LoadPageFault _ => (false, 13)
  | .StorePageFault _ => (false, 15)
  | .UserSoftwareInterrupt => (true, 0)
  | .SupervisorSoftwareInterrupt => (true, 1)
  | .MachineSoftwareInterrupt => (true, 3)
  | .SupervisorTimerInterrupt => (true, 5)
  | .MachineTimerInterrupt => (true, 7)
  | .ExternalInterrupt => (true, 9)
  | .RequestedTrap c => (false, c)

/-- The `tval` selection inside Cpu::trap. -/
def Trap.tval : Trap → Nat
  | .InstructionAddressMisaligned a => a
  | .InstructionAccessFault a => a
  | .LoadAddressMisaligned a => a
  | .LoadAccessFault a => a
  | .StoreAddressMisaligned a => a
  | .StoreAccessFault a => a
  | .InstructionPageFault a => a
  | .LoadPageFault a => a
  | .StorePageFault a => a
  | .IllegalInstruction i => i
  | _ => 0

/-- mstatus bit constants (src/hardware/src/isa/csr.rs). -/
def MSTATUS_SIE : Nat := 1 <<< 1

/-- mstatus.MIE. -/
def MSTATUS_MIE : Nat := 1 <<< 3

/-- mstatus.SPIE. -/
def MSTATUS_SPIE : Nat := 1 <<< 5

/-- mstatus.MPIE. -/
def MSTATUS_MPIE : Nat := 1 <<< 7

/-- mstatus.SPP. -/
def MSTATUS_SPP : Nat := 1 <<< 8

/-- mstatus.MPP (two bits). -/
def MSTATUS_MPP : Nat := 3 <<< 11

/-- mip.MTIP. -/
def MIP_MTIP : Nat := 1 <<< 7

/-- mip.MEIP. -/
def MIP_MEIP : Nat := 1 <<< 11

/-- The CSR file (struct Csrs in core/cpu.rs). -/
structure Csrs where
  mstatus : Nat := 0
  sstatus : Nat := 0
  mepc : Nat := 0
  sepc : Nat := 0
  mtvec : Nat := 0
  stvec : Nat := 0
  scause : Nat := 0
  sscratch : Nat := 0
  satp : Nat := 0
  mscratch : Nat := 0
  mcause : Nat := 0
  mtval : Nat := 0
  stval : Nat := 0
  misa : Nat := 0
  medeleg : Nat := 0
  mideleg : Nat := 0
  mip : Nat := 0
  mie : Nat := 0
deriving Repr

/-- The slice of Cpu state that Cpu::trap reads and writes: the CSR file,
the privilege level (0 = User, 1 = Supervisor, 3 = Machine) and the pc.
The pipeline-latch flush and the trap counter of the source are not
modelled, as they do not touch this state. -/
structure CpuTrapState where
  csrs : Csrs
  privilege : Nat
  pc : Nat
deriving Repr

/-- Cpu::trap: trap entry with delegation (core/cpu.rs lines 371 to 471). -/
def CpuTrapState.trap (s : CpuTrapState) (cause : Trap) (epc : Nat) : CpuTrapState :=
  let enc := cause.encode
  let is_interrupt := enc.1
  let code := enc.2
  let deleg_mask := if is_interrupt then s.csrs.mideleg else s.csrs.medeleg
  let tval := cause.tval
  if s.privilege ≤ 1 ∧ ((deleg_mask >>> code) &&& 1) ≠ 0 then
    let sstatus0 := s.csrs.sstatus
    let sstatus1 :=
      if sstatus0 &&& MSTATUS_SIE ≠ 0 then sstatus0 ||| MSTATUS_SPIE
      else sstatus0 &&& notU64 MSTATUS_SPIE
    let sstatus2 :=
      if s.privilege = 1 then sstatus1 ||| MSTATUS_SPP
      else sstatus1 &&& notU64 MSTATUS_SPP
    let sstatus3 := sstatus2 &&& notU64 MSTATUS_SIE
    { s with
      csrs := { s.csrs with
        scause := if is_interrupt then (1 <<< 63) ||| code else code
        sepc := epc
        stval := tval
        sstatus := sstatus3 }
      privilege := 1
      pc := (s.csrs.stvec &&& notU64 3) +
        (if s.csrs.stvec &&& 1 ≠ 0 ∧ is_interrupt = true then 4 * code else 0) }
  else
    let mstatus0 := s.csrs.mstatus
    let mstatus1 :=
      if mstatus0 &&& MSTATUS_MIE ≠ 0 then mstatus0 ||| MSTATUS_MPIE
      else mstatus0 &&& notU64 MSTATUS_MPIE
    let mstatus2 := (mstatus1 &&& notU64 MSTATUS_MPP) ||| (s.privilege <<< 11)
    let mstatus3 := mstatus2 &&& notU64 MSTATUS_MIE
    { s with
      csrs := { s.csrs with
        mcause := if is_interrupt then (1 <<< 63) ||| code else code
        mepc := epc
        mtval := tval
        mstatus := mstatus3 }
      privilege := 3
      pc := (s.csrs.mtvec &&& notU64 3) +
        (if s.csrs.mtvec &&& 1 ≠ 0 ∧ is_interrupt = true then 4 * code else 0) }

/-- The mip update at the start of Cpu::tick (core/cpu.rs lines 159 to 174):
the MTIP and MEIP bits are forced to mirror the timer and external IRQ
lines reported by the bus tick of this cycle. -/
def tick_update_mip (mip : Nat) (timer_irq external_irq : Bool) : Nat :=
  let mip1 := if timer_irq then mip ||| MIP_MTIP else mip &&& notU64 MIP_MTIP
  if external_irq then mip1 ||| MIP_MEIP else mip1 &&& notU64 MIP_MEIP

/-- A sample trap-entry state: supervisor privilege, load page faults
(cause code 13) delegated through medeleg. -/
def trapStateEx : CpuTrapState :=
  { csrs := { medeleg := 1 <<< 13 }, privilege := 1, pc := 0 }

/-! ## Register file (src/hardware/src/core/register_file.rs)

The source stores fregs as `[f64; 32]` and converts with f64::from_bits on
write and f64::to_bits on read; both are raw transmutes between u64 and
f64 bit patterns and compose to the identity, so fregs is embedded
directly as the list of 64-bit patterns. -/

/-- struct RegisterFile. -/
structure RegisterFile where
  regs : List Nat
  fregs : List Nat
deriving Repr

/-- RegisterFile::new. -/
def RegisterFile.new : RegisterFile :=
  { regs := List.replicate 32 0, fregs := List.replicate 32 0 }

/-- RegisterFile::read: index 0 reads as zero. -/
def RegisterFile.read (rf : RegisterFile) (idx : Nat) : Nat :=
  if idx = 0 then 0 else rf.regs.getD idx 0

/-- RegisterFile::write: writes to index 0 are ignored. -/
def RegisterFile.write (rf : RegisterFile) (idx val : Nat) : RegisterFile :=
  if idx ≠ 0 then { rf with regs := rf.regs.set idx val } else rf

/-- RegisterFile::read_f: to_bits of the stored f64, i.e. the stored pattern. -/
def RegisterFile.read_f (rf : RegisterFile) (idx : Nat) : Nat :=
  rf.fregs.getD idx 0

/-- RegisterFile::write_f: stores from_bits of the value, i.e. the pattern. -/
def RegisterFile.write_f (rf : RegisterFile) (idx val : Nat) : RegisterFile :=
  { rf with fregs := rf.fregs.set idx val }

/-! ## PLRU replacement policy (src/hardware/src/core/cache/policies/plru.rs) -/

/-- struct PlruPolicy: one usage bit per way per set. -/
structure PlruPolicy where
  usage : List Nat
  ways : Nat
deriving Repr

/-- PlruPolicy::new. -/
def PlruPolicy.new (sets ways : Nat) : PlruPolicy :=
  { usage := List.replicate sets 0, ways := ways }

/-- PlruPolicy::update: set the touched bit; if all ways bits are then set,
keep only the touched bit. -/
def PlruPolicy.update (p : PlruPolicy) (set way : Nat) : PlruPolicy :=
  let mask := 1 <<< way
  let u0 := (p.usage.getD set 0) ||| mask
  let all_ones := (1 <<< p.ways) - 1
  let u1 := if u0 &&& all_ones = all_ones then mask else u0
  { p with usage := p.usage.set set u1 }

/-- PlruPolicy::get_victim: the first way with a zero usage bit, falling
through to way 0 when every bit is set. -/
def PlruPolicy.get_victim (p : PlruPolicy) (set : Nat) : Nat :=
  ((List.range p.ways).find?
    (fun i => ((p.usage.getD set 0) >>> i) &&& 1 == 0)).getD 0

/-! ## Integer ALU (src/hardware/src/core/stages/execute.rs, fn alu)

The integer arms of the source ALU are embedded below; the floating-point
arms that share the catch-all branch of the source match (and its third
operand, used only by the fused multiply-add family) operate on host IEEE
floats and are outside this embedding. -/

/-- The integer operations of enum AluOp used by fn alu. -/
inductive AluOp where
  | Add | Sub | Sll | Srl | Sra | Or | And | Xor | Slt | Sltu
  | Mul | Mulh | Mulhsu | Mulhu | Div | Divu | Rem | Remu
deriving DecidableEq, Repr

/-- fn alu, integer arms: a and b are u64 bit patterns, is32 selects the
sign-extended 32-bit RV64 `*W` behaviour.  Rust wrapping division and
remainder are Int.tdiv and Int.tmod (truncation toward zero) followed by
the wrap to the result width, which also reproduces the INT_MIN / -1
wrap-around. -/
def alu (op : AluOp) (a b : Nat) (is32 : Bool) : Nat :=
  let sh6 := b &&& 0x3f
  let sh5 := b &&& 0x1f
  match op with
  | .Add => if is32 then i32ToU64 (toI32 a + toI32 b) else wrap64 (a + b)
  | .Sub => if is32 then i32ToU64 (toI32 a - toI32 b) else i64ToU64 (toI64 a - toI64 b)
  | .Sll => if is32 then sext32 ((a % 2 ^ 32) <<< sh5) else wrap64 (a <<< sh6)
  | .Srl => if is32 then sext32 ((a % 2 ^ 32) >>> sh5) else a >>> sh6
  | .Sra =>
    if is32 then i64ToU64 (Int.ediv (toI32 a) (2 ^ sh5))
    else i64ToU64 (Int.ediv (toI64 a) (2 ^ sh6))
  | .Or => a ||| b
  | .And => a &&& b
  | .Xor => a ^^^ b
  | .Slt =>
    if is32 then (if toI32 a < toI32 b then 1 else 0)
    else (if toI64 a < toI64 b then 1 else 0)
  | .Sltu =>
    if is32 then (if a % 2 ^ 32 < b % 2 ^ 32 then 1 else 0)
    else (if a < b then 1 else 0)
  | .Mul => if is32 then sext32 ((a % 2 ^ 32) * (b % 2 ^ 32)) else wrap64 (a * b)
  | .Mulh =>
    if is32 then i64ToU64 (Int.ediv (toI32 a * toI32 b) (2 ^ 32))
    else i64ToU64 (Int.ediv (toI64 a * toI64 b) (2 ^ 64))
  | .Mulhsu =>
    if is32 then i64ToU64 (Int.ediv (toI32 a * ((b % 2 ^ 32 : Nat) : Int)) (2 ^ 32))
    else i64ToU64 (Int.ediv (toI64 a * (b : Int)) (2 ^ 64))
  | .Mulhu =>
    if is32 then ((a % 2 ^ 32) * (b % 2 ^ 32)) >>> 32
    else (a * b) >>> 64
  | .Div =>
    if is32 then
      if toI32 b = 0 then i64ToU64 (-1)
      else i32ToU64 (Int.tdiv (toI32 a) (toI32 b))
    else
      if b = 0 then i64ToU64 (-1)
      else i64ToU64 (Int.tdiv (toI64 a) (toI64 b))
  | .Divu =>
    if is32 then
      if toI32 b = 0 then i64ToU64 (-1)
      else (a % 2 ^ 32) / (b % 2 ^ 32)
    else
      if b = 0 then i64ToU64 (-1)
      else a / b
  | .Rem =>
    if is32 then
      if toI32 b = 0 then a
      else i32ToU64 (Int.tmod (toI32 a) (toI32 b))
    else
      if b = 0 then a
      else i64ToU64 (Int.tmod (toI64 a) (toI64 b))
  | .Remu =>
    if is32 then
      if toI32 b = 0 then a
      else (a % 2 ^ 32) % (b % 2 ^ 32)
    else
      if b = 0 then a
      else a % b

/-! ## Device bus (src/hardware/src/system/bus.rs)

The source routes through `Vec<Box<dyn Device>>`; the trait object is
embedded as an abstract device state type together with a record of the
trait operations, and the mutation of the found device is made explicit by
rebuilding the device list. -/

/-- The Device trait operations used by the bus read/write path: address
range (base, size) plus reads and writes at the four widths.  Reads may
mutate the device (`&mut self` in the source), so they return the new
device state. -/
structure DeviceOps (δ : Type) where
  address_range : δ → Nat × Nat
  read_u8 : δ → Nat → Nat × δ
  read_u16 : δ → Nat → Nat × δ
  read_u32 : δ → Nat → Nat × δ
  read_u64 : δ → Nat → Nat × δ
  write_u8 : δ → Nat → Nat → δ
  write_u16 : δ → Nat → Nat → δ
  write_u32 : δ → Nat → Nat → δ
  write_u64 : δ → Nat → Nat → δ

/-- struct Bus. -/
structure Bus (δ : Type) where
  devices : List δ
  width_bytes : Nat
  latency_cycles : Nat

/-- Bus::find_device fused with the read dispatch: the first device whose
[base, base+size) range covers paddr handles the read at offset
paddr - base; an uncovered address reads as 0 and touches nothing. -/
def busReadAux {δ : Type} (D : DeviceOps δ) (f : δ → Nat → Nat × δ) :
    List δ → Nat → Nat × List δ
  | [], _ => (0, [])
  | d :: rest, paddr =>
    if (D.address_range d).1 ≤ paddr ∧
        paddr < (D.address_range d).1 + (D.address_range d).2 then
      let r := f d (paddr - (D.address_range d).1)
      (r.1, r.2 :: rest)
    else
      let r := busReadAux D f rest paddr
      (r.1, d :: r.2)

/-- Bus::find_device fused with the write dispatch: an uncovered address
is a silent no-op. -/
def busWriteAux {δ : Type} (D : DeviceOps δ) (f : δ → Nat → Nat → δ) :
    List δ → Nat → Nat → List δ
  | [], _, _ => []
  | d :: rest, paddr, val =>
    if (D.address_range d).1 ≤ paddr ∧
        paddr < (D.address_range d).1 + (D.address_range d).2 then
      f d (paddr - (D.address_range d).1) val :: rest
    else
      d :: busWriteAux D f rest paddr val

/-- Bus::read_u8. -/
def Bus.read_u8 {δ : Type} (D : DeviceOps δ) (bus : Bus δ) (paddr : Nat) : Nat × Bus δ :=
  let r := busReadAux D D.read_u8 bus.devices paddr
  (r.1, { bus with devices := r.2 })

/-- Bus::read_u16. -/
def Bus.read_u16 {δ : Type} (D : DeviceOps δ) (bus : Bus δ) (paddr : Nat) : Nat × Bus δ :=
  let r := busReadAux D D.read_u16 bus.devices paddr
  (r.1, { bus with devices := r.2 })

/-- Bus::read_u32. -/
def Bus.read_u32 {δ : Type} (D : DeviceOps δ) (bus : Bus δ) (paddr : Nat) : Nat × Bus δ :=
  let r := busReadAux D D.read_u32 bus.devices paddr
  (r.1, { bus with devices := r.2 })

/-- Bus::read_u64. -/
def Bus.read_u64 {δ : Type} (D : DeviceOps δ) (bus : Bus δ) (paddr : Nat) : Nat × Bus δ :=
  let r := busReadAux D D.read_u64 bus.devices paddr
  (r.1, { bus with devices := r.2 })

/-- Bus::write_u8. -/
def Bus.write_u8 {δ : Type} (D : DeviceOps δ) (bus : Bus δ) (paddr val : Nat) : Bus δ :=
  { bus with devices := busWriteAux D D.write_u8 bus.devices paddr val }

/-- Bus::write_u16. -/
def Bus.write_u16 {δ : Type} (D : DeviceOps δ) (bus : Bus δ) (paddr val : Nat) : Bus δ :=
  { bus with devices := busWriteAux D D.write_u16 bus.devices paddr val }

/-- Bus::write_u32. -/
def Bus.write_u32 {δ : Type} (D : DeviceOps δ) (bus : Bus δ) (paddr val : Nat) : Bus δ :=
  { bus with devices := busWriteAux D D.write_u32 bus.devices paddr val }

/-- Bus::write_u64. -/
def Bus.write_u64 {δ : Type} (D : DeviceOps δ) (bus : Bus δ) (paddr val : Nat) : Bus δ :=
  { bus with devices := busWriteAux D D.write_u64 bus.devices paddr val }

/-- Bus::is_valid_address. -/
def Bus.is_valid_address {δ : Type} (D : DeviceOps δ) (bus : Bus δ) (paddr : Nat) : Bool :=
  bus.devices.any (fun d =>
    decide ((D.address_range d).1 ≤ paddr ∧
      paddr < (D.address_range d).1 + (D.address_range d).2))

/-- A minimal concrete device instance for evaluating the bus routing: the
device state is its base address, with a 4-byte window and trivial
register behaviour. -/
def natDeviceOps : DeviceOps Nat :=
  { address_range := fun d => (d, 4)
    read_u8 := fun d off => (d + off, d)
    read_u16 := fun d off => (d + off, d)
    read_u32 := fun d off => (d + off, d)
    read_u64 := fun d off => (d + off, d)
    write_u8 := fun d _ _ => d
    write_u16 := fun d _ _ => d
    write_u32 := fun d _ _ => d
    write_u64 := fun d _ _ => d }

/-- A one-device bus over natDeviceOps covering [100, 104). -/
def natBusEx : Bus Nat := { devices := [100], width_bytes := 8, latency_cycles := 1 }

/-! ## Sv39 page-table walk (src/hardware/src/core/mmu/mod.rs)

Only the TLB-miss walk of Mmu::translate is embedded (the TLB-hit path
never touches page-table memory and the TLB refill does not either).
Physical memory is modelled at the u64 granularity the walker uses: a
function from address to stored 64-bit value, with bus.write_u64 as a
pointwise update.  The per-level bus transit charge is a parameter. -/

/-- enum AccessType (core/types.rs). -/
inductive AccessType where
  | Fetch
  | Read
  | Write
deriving DecidableEq, Repr

/-- Physical memory as seen through bus.read_u64 / bus.write_u64. -/
def Mem : Type := Nat → Nat

/-- VirtAddr::vpn0. -/
def vpn0 (vaddr : Nat) : Nat := (vaddr >>> 12) &&& 0x1FF

/-- VirtAddr::vpn1. -/
def vpn1 (vaddr : Nat) : Nat := (vaddr >>> 21) &&& 0x1FF

/-- VirtAddr::vpn2. -/
def vpn2 (vaddr : Nat) : Nat := (vaddr >>> 30) &&& 0x1FF

/-- The outcome of a successful walk: the translated physical address, the
address of the leaf PTE, and the accumulated cycle charge. -/
structure WalkLeaf where
  paddr : Nat
  pteAddr : Nat
  cycles : Nat
deriving Repr

instance : Inhabited WalkLeaf := ⟨⟨0, 0, 0⟩⟩

/-- One iteration of the `for level in (0..3).rev()` loop of
Mmu::translate, with the early returns of the source as `none` (fault);
a non-leaf entry at level 0 falls out of the loop into the final fault. -/
def walkLevel (acc : AccessType) (vaddr transit : Nat) :
    Nat → Mem → Nat → Nat → Option WalkLeaf × Mem
  | level, mem, pt_addr, cycles =>
    let vpn_i := if level = 2 then vpn2 vaddr else if level = 1 then vpn1 vaddr else vpn0 vaddr
    let pte_addr := pt_addr + vpn_i * 8
    let cycles1 := cycles + transit
    let pte := mem pte_addr
    if pte &&& 1 = 0 then (none, mem)
    else
      let r := (pte >>> 1) &&& 1
      let w := (pte >>> 2) &&& 1
      let x := (pte >>> 3) &&& 1
      if r = 0 ∧ w = 0 ∧ x = 0 then
        match level with
        | 0 => (none, mem)
        | l + 1 =>
          walkLevel acc vaddr transit l mem (((pte >>> 10) &&& 0xFFFFFFFFFFF) <<< 12) cycles1
      else if w = 1 ∧ r = 0 then (none, mem)
      else
        let a := (pte >>> 6) &&& 1
        let d := (pte >>> 7) &&& 1
        let need_update := a = 0 ∨ (acc = AccessType.Write ∧ d = 0)
        let new_pte0 := if a = 0 then pte ||| (1 <<< 6) else pte
        let new_pte := if acc = AccessType.Write ∧ d = 0 then new_pte0 ||| (1 <<< 7) else new_pte0
        let mem2 : Mem := if need_update then (fun q => if q = pte_addr then new_pte else mem q) else mem
        let cycles2 := if need_update then cycles1 + 10 else cycles1
        let pte_ppn := (pte >>> 10) &&& 0xFFFFFFFFFFF
        let offset_mask := (1 <<< (12 + 9 * level)) - 1
        (some { paddr := (pte_ppn <<< 12) ||| (vaddr &&& offset_mask)
                pteAddr := pte_addr
                cycles := cycles2 }, mem2)

/-- The page-table walk of Mmu::translate: three levels starting from the
root page number in satp. -/
def ptWalk (mem : Mem) (satp vaddr : Nat) (acc : AccessType) (transit : Nat) :
    Option WalkLeaf × Mem :=
  walkLevel acc vaddr transit 2 mem ((satp &&& 0xFFFFFFFFFFF) <<< 12) 0

/-- A one-entry page table for evaluating the walk: the root PTE at
address 0 is a leaf with V, R, A and D already set (pattern 0xC3). -/
def memC4 : Mem := fun q => if q = 0 then 0xC3 else 0

/-! ## Cache simulator (src/hardware/src/core/cache/mod.rs)

The replacement policy and prefetcher trait objects are embedded as
abstract state types with records of their operations; RandomPolicy
mutates its xorshift state in get_victim and StridePrefetcher mutates its
table in observe, so both operations return their updated state. -/

/-- struct CacheLine. -/
structure CacheLine where
  tag : Nat
  valid : Bool
  dirty : Bool
deriving DecidableEq, Repr

instance : Inhabited CacheLine := ⟨⟨0, false, false⟩⟩

/-- The ReplacementPolicy trait operations (core/cache/policies/mod.rs). -/
structure PolicyOps (π : Type) where
  update : π → Nat → Nat → π
  get_victim : π → Nat → Nat × π

/-- The Prefetcher trait operation (core/prefetch/mod.rs). -/
structure PrefetchOps (φ : Type) where
  observe : φ → Nat → Bool → List Nat × φ

/-- struct CacheSim over abstract policy and prefetcher state. -/
structure CacheSim (π φ : Type) where
  latency : Nat
  enabled : Bool
  prefetcher : Option φ
  lines : List CacheLine
  num_sets : Nat
  ways : Nat
  line_bytes : Nat
  policy : π

/-- CacheSim::contains. -/
def CacheSim.contains {π φ : Type} (c : CacheSim π φ) (addr : Nat) : Bool :=
  if !c.enabled then false
  else
    let set_index := (addr / c.line_bytes) % c.num_sets
    let tag := addr / (c.line_bytes * c.num_sets)
    let base_idx := set_index * c.ways
    (List.range c.ways).any (fun i =>
      (c.lines.getD (base_idx + i) default).valid &&
        (c.lines.getD (base_idx + i) default).tag == tag)

/-- CacheSim::install_line: pick the policy victim, charge the next-level
latency when evicting a valid dirty line, install the new line and touch
the policy. -/
def CacheSim.install_line {π φ : Type} (P : PolicyOps π) (c : CacheSim π φ)
    (addr : Nat) (is_write : Bool) (next_level_latency : Nat) : Nat × CacheSim π φ :=
  let set_index := (addr / c.line_bytes) % c.num_sets
  let tag := addr / (c.line_bytes * c.num_sets)
  let base_idx := set_index * c.ways
  let v := P.get_victim c.policy set_index
  let victim_way := v.1
  let victim_idx := base_idx + victim_way
  let vline := c.lines.getD victim_idx default
  let penalty := if vline.valid && vline.dirty then next_level_latency else 0
  let lines2 := c.lines.set victim_idx { tag := tag, valid := true, dirty := is_write }
  let pol2 := P.update v.2 set_index victim_way
  (penalty, { c with lines := lines2, policy := pol2 })

/-- CacheSim::access: check for a hit in the set (updating the policy and
the dirty bit), install on a miss, then consult the prefetcher and install
every predicted line not already resident, discarding those penalties. -/
def CacheSim.access {π φ : Type} (P : PolicyOps π) (F : PrefetchOps φ)
    (c : CacheSim π φ) (addr : Nat) (is_write : Bool) (next_level_latency : Nat) :
    (Bool × Nat) × CacheSim π φ :=
  if !c.enabled then ((false, 0), c)
  else
    let set_index := (addr / c.line_bytes) % c.num_sets
    let tag := addr / (c.line_bytes * c.num_sets)
    let base_idx := set_index * c.ways
    let hit_way := (List.range c.ways).find? (fun i =>
      (c.lines.getD (base_idx + i) default).valid &&
        (c.lines.getD (base_idx + i) default).tag == tag)
    let hc : Bool × CacheSim π φ :=
      match hit_way with
      | some i =>
        let lines2 :=
          if is_write then
            c.lines.set (base_idx + i)
              { c.lines.getD (base_idx + i) default with dirty := true }
          else c.lines
        (true, { c with policy := P.update c.policy set_index i, lines := lines2 })
      | none => (false, c)
    let hit := hc.1
    let c1 := hc.2
    let pc : Nat × CacheSim π φ :=
      if hit then (0, c1) else c1.install_line P addr is_write next_level_latency
    let penalty := pc.1
    let c2 := pc.2
    let pf : List Nat × CacheSim π φ :=
      match c2.prefetcher with
      | some p =>
        let o := F.observe p addr hit
        (o.1, { c2 with prefetcher := some o.2 })
      | none => ([], c2)
    let c4 := pf.1.foldl (fun cc target =>
      if cc.contains target then cc else (cc.install_line P target false next_level_latency).2) pf.2
    ((hit, penalty), c4)

/-- struct LruPolicy (core/cache/policies/lru.rs): an MRU-first stack per
set; update moves the way to the front, the victim is the tail. -/
def lruOps : PolicyOps (List (List Nat)) :=
  { update := fun usage set way =>
      usage.set set (way :: (usage.getD set []).erase way)
    get_victim := fun usage set =>
      (((usage.getD set []).getLast?).getD 0, usage) }

/-- struct NextLinePrefetcher (core/prefetch/next_line.rs): emit degree
sequential line-aligned addresses beyond the current one; no mutable
state. -/
structure NextLinePrefetcher where
  line_bytes : Nat
  degree : Nat
deriving Repr

/-- NextLinePrefetcher::observe. -/
def nextLineOps : PrefetchOps NextLinePrefetcher :=
  { observe := fun p addr _hit =>
      (((List.range p.degree).map (fun k =>
        (addr &&& notU64 (p.line_bytes - 1)) + p.line_bytes * (k + 1))), p) }

/-- A direct-mapped-set cache for the prefetch counterexample: one set of
two ways, 64-byte lines, LRU replacement, next-line prefetching of
degree 2, initially empty. -/
def prefetchCacheEx : CacheSim (List (List Nat)) NextLinePrefetcher :=
  { latency := 1
    enabled := true
    prefetcher := some { line_bytes := 64, degree := 2 }
    lines := [default, default]
    num_sets := 1
    ways := 2
    line_bytes := 64
    policy := [[0, 1]] }

/-- The counterexample state: the cache above after read accesses at 0, 64
and 128, with next-level latency 10. -/
def prefetchCacheEx3 : CacheSim (List (List Nat)) NextLinePrefetcher :=
  ((((prefetchCacheEx.access lruOps nextLineOps 0 false 10).2.access
      lruOps nextLineOps 64 false 10).2.access lruOps nextLineOps 128 false 10).2)

/-- A prefetcher-free single-line cache holding the line of address 0, for
the witness of the amended C3. -/
def noPrefetchCacheEx : CacheSim (List (List Nat)) NextLinePrefetcher :=
  { latency := 1
    enabled := true
    prefetcher := none
    lines := [{ tag := 0, valid := true, dirty := false }]
    num_sets := 1
    ways := 1
    line_bytes := 64
    policy := [[0]] }

/-! ## Theorems -/

/-- Helper: below bit 64, the complement notU64 flips each bit. -/
theorem testBit_notU64_of_lt {i : Nat} (m : Nat) (hi : i < 64) :
    (notU64 m).testBit i = !(m.testBit i) := by
  rw [notU64, Nat.testBit_xor, Nat.testBit_two_pow_sub_one, decide_eq_true hi]
  cases m.testBit i <;> rfl

/-- C1: the claim says a 32-bit MMIO write of value v at the CLINT high-half
offsets 0x4004 (mtimecmp) and 0xBFFC (mtime) makes the upper 32 bits of the
register equal to v.  The code instead writes the shadowing match variable,
i.e. the offset itself: writing v = 1 at 0x4004 yields mtimecmp with upper
half 0x4004 (not 1), and writing v = 1 at 0xBFFC yields mtime with upper
half 0xBFFC (not 1).  This evaluates the code at that failing input. -/
theorem clint_write_u32_high_half_uses_offset :
    ((Clint.new 0x2000000 1).write_u32 (0x4000 + 4) 1).mtimecmp = 0x00004004FFFFFFFF ∧
    ((Clint.new 0x2000000 1).write_u32 (0xBFF8 + 4) 1).mtime = 0x0000BFFC00000000 ∧
    (0x00004004FFFFFFFF : Nat) ≠ 0x00000001FFFFFFFF ∧
    (0x0000BFFC00000000 : Nat) ≠ 0x0000000100000000 := by
  refine ⟨?_, ?_, by decide, by decide⟩ <;> decide

/-- C6: for every unaligned access, staying within one cache line costs the
single re-access cycle (penalty 1), and crossing a cache line boundary costs
exactly one extra cycle on top of that (penalty 2 = 1 + 1). -/
theorem unaligned_latency_cross_adds_one_cycle (addr size cls : Nat)
    (h : is_aligned addr size = false) :
    (crosses_cache_line addr size cls = false →
      calculate_unaligned_latency addr size cls = 1) ∧
    (crosses_cache_line addr size cls = true →
      calculate_unaligned_latency addr size cls = 1 + 1) := by
  constructor <;> intro hc <;> simp [calculate_unaligned_latency, h, hc]

/-- Witness for C6: an unaligned 8-byte access at address 61 crosses a
64-byte line and costs 2 cycles; the same access at address 41 stays in the
line and costs 1 cycle. -/
theorem unaligned_latency_cross_adds_one_cycle_witness :
    calculate_unaligned_latency 61 8 64 = 1 + 1 ∧
    calculate_unaligned_latency 41 8 64 = 1 := by
  constructor
  · exact (unaligned_latency_cross_adds_one_cycle 61 8 64 (by decide)).2 (by decide)
  · exact (unaligned_latency_cross_adds_one_cycle 41 8 64 (by decide)).1 (by decide)

/-- C2: for every trap taken with cause code c, the privilege after trap
entry is Supervisor (1) iff the privilege at entry was at most S and bit c
of the delegation mask (mideleg for interrupts, medeleg for exceptions) is
1; otherwise the privilege after trap entry is Machine (3). -/
theorem trap_final_privilege (s : CpuTrapState) (cause : Trap) (epc : Nat) :
    ((s.trap cause epc).privilege = 1 ↔
      s.privilege ≤ 1 ∧
        (((if cause.encode.1 then s.csrs.mideleg else s.csrs.medeleg) >>>
            cause.encode.2) &&& 1) = 1) ∧
    (¬(s.privilege ≤ 1 ∧
        (((if cause.encode.1 then s.csrs.mideleg else s.csrs.medeleg) >>>
            cause.encode.2) &&& 1) = 1) →
      (s.trap cause epc).privilege = 3) := by
  have hb : ∀ x : Nat, (x &&& 1 = 1 ↔ x &&& 1 ≠ 0) := by
    intro x; rw [Nat.and_one_is_mod]; omega
  by_cases hc : s.privilege ≤ 1 ∧
      (((if cause.encode.1 then s.csrs.mideleg else s.csrs.medeleg) >>>
          cause.encode.2) &&& 1) ≠ 0
  · have hp : (s.trap cause epc).privilege = 1 := by
      unfold CpuTrapState.trap
      rw [if_pos hc]
    refine ⟨?_, fun hn => absurd ⟨hc.1, (hb _).mpr hc.2⟩ hn⟩
    rw [hp]
    exact ⟨fun _ => ⟨hc.1, (hb _).mpr hc.2⟩, fun _ => rfl⟩
  · have hp : (s.trap cause epc).privilege = 3 := by
      unfold CpuTrapState.trap
      rw [if_neg hc]
    refine ⟨?_, fun _ => hp⟩
    rw [hp]
    constructor
    · intro h3; exact absurd h3 (by omega)
    · intro hP; exact absurd ⟨hP.1, (hb _).mp hP.2⟩ hc

/-- Witness for C2: a delegated load page fault taken at S privilege lands
in S mode; a machine timer interrupt with mideleg clear lands in M mode. -/
theorem trap_final_privilege_witness :
    (trapStateEx.trap (Trap.LoadPageFault 0x1000) 0).privilege = 1 ∧
    (trapStateEx.trap Trap.MachineTimerInterrupt 0).privilege = 3 := by
  constructor
  · exact (trap_final_privilege trapStateEx (Trap.LoadPageFault 0x1000) 0).1.mpr
      ⟨by decide, by decide⟩
  · exact (trap_final_privilege trapStateEx Trap.MachineTimerInterrupt 0).2 (by decide)

/-- C8: the mip update at the start of every CPU tick forces the MTIP bit
(bit 7) to the timer IRQ line and the MEIP bit (bit 11) to the external IRQ
line of that cycle, independently of the previous mip value, and leaves
every other mip bit unchanged; hence a CSR write to those mip bits never
survives past the next tick. -/
theorem tick_update_mip_mirrors_irq_lines (mip : Nat) (t e : Bool) :
    (tick_update_mip mip t e).testBit 7 = t ∧
    (tick_update_mip mip t e).testBit 11 = e ∧
    (∀ i, i < 64 → i ≠ 7 → i ≠ 11 →
      (tick_update_mip mip t e).testBit i = mip.testBit i) := by
  have h7 : MIP_MTIP = 2 ^ 7 := by decide
  have h11 : MIP_MEIP = 2 ^ 11 := by decide
  have hM7 : MIP_MTIP.testBit 7 = true := by decide
  have hE7 : MIP_MEIP.testBit 7 = false := by decide
  have hM11 : MIP_MTIP.testBit 11 = false := by decide
  have hE11 : MIP_MEIP.testBit 11 = true := by decide
  refine ⟨?_, ?_, ?_⟩
  · cases t <;> cases e <;>
      simp only [tick_update_mip, Bool.false_eq_true, if_false, if_true,
        Nat.testBit_lor, Nat.testBit_land,
        testBit_notU64_of_lt _ (show (7 : Nat) < 64 by omega), hM7, hE7,
        Bool.or_true, Bool.or_false, Bool.and_true, Bool.and_false,
        Bool.not_true, Bool.not_false, Bool.true_or, Bool.false_or,
        Bool.true_and, Bool.false_and]
  · cases t <;> cases e <;>
      simp only [tick_update_mip, Bool.false_eq_true, if_false, if_true,
        Nat.testBit_lor, Nat.testBit_land,
        testBit_notU64_of_lt _ (show (11 : Nat) < 64 by omega), hM11, hE11,
        Bool.or_true, Bool.or_false, Bool.and_true, Bool.and_false,
        Bool.not_true, Bool.not_false, Bool.true_or, Bool.false_or,
        Bool.true_and, Bool.false_and]
  · intro i hi hi7 hi11
    have hMi : MIP_MTIP.testBit i = false := by
      rw [h7]; exact Nat.testBit_two_pow_of_ne (Ne.symm hi7)
    have hEi : MIP_MEIP.testBit i = false := by
      rw [h11]; exact Nat.testBit_two_pow_of_ne (Ne.symm hi11)
    cases t <;> cases e <;>
      simp only [tick_update_mip, Bool.false_eq_true, if_false, if_true,
        Nat.testBit_lor, Nat.testBit_land,
        testBit_notU64_of_lt _ hi, hMi, hEi,
        Bool.or_false, Bool.not_false, Bool.and_true]

/-- Witness for C8: with mip having MTIP and MEIP set but both IRQ lines
deasserted, the tick update clears both bits and keeps bit 1 (SSIP). -/
theorem tick_update_mip_mirrors_irq_lines_witness :
    (tick_update_mip 0x8A2 false false).testBit 7 = false ∧
    (tick_update_mip 0x8A2 false false).testBit 11 = false ∧
    (tick_update_mip 0x8A2 false false).testBit 1 = (0x8A2 : Nat).testBit 1 := by
  have h := tick_update_mip_mirrors_irq_lines 0x8A2 false false
  exact ⟨h.1, h.2.1, h.2.2 1 (by omega) (by omega) (by omega)⟩

/-- C9: writing any 64-bit value to a floating-point register and reading
it back as 64 bits returns exactly the value (bit-pattern round-trip), for
every index including 0; integer register 0, in contrast, reads as 0 after
any write. -/
theorem fp_register_round_trip (rf : RegisterFile) (i v : Nat)
    (hlen : rf.fregs.length = 32) (hi : i < 32) :
    (rf.write_f i v).read_f i = v ∧ (rf.write 0 v).read 0 = 0 := by
  constructor
  · show (rf.fregs.set i v).getD i 0 = v
    rw [List.getD_eq_getElem?_getD, List.getElem?_set_self (by omega)]
    rfl
  · simp [RegisterFile.write, RegisterFile.read]

/-- Witness for C9: register f0 stores and returns an arbitrary pattern,
while integer x0 stays 0. -/
theorem fp_register_round_trip_witness :
    (RegisterFile.new.write_f 0 0xDEADBEEF).read_f 0 = 0xDEADBEEF ∧
    (RegisterFile.new.write 0 0xDEADBEEF).read 0 = 0 :=
  fp_register_round_trip RegisterFile.new 0 0xDEADBEEF (by decide) (by decide)

/-- Helper: the zero-bit test used by PlruPolicy::get_victim agrees with
Nat.testBit. -/
theorem shift_and_one_beq_zero_iff (n j : Nat) :
    (((n >>> j) &&& 1 == 0) = true) ↔ n.testBit j = false := by
  rw [Nat.and_one_is_mod, Nat.shiftRight_eq_div_pow, Nat.testBit_to_div_mod]
  simp only [beq_iff_eq, decide_eq_false_iff_not]
  omega

/-- C10 counterexample: with a single way, one update makes the usage word
all-ones over the way mask (1 &&& 1 = 1), and the zero-bit search of
get_victim finds nothing, so the fall-through branch is reached. -/
theorem plru_single_way_all_bits_set :
    ((PlruPolicy.new 1 1).update 0 0).usage.getD 0 0 &&& ((1 <<< 1) - 1) = (1 <<< 1) - 1 ∧
    (1 <<< 1) - 1 ≠ 0 ∧
    (List.range ((PlruPolicy.new 1 1).update 0 0).ways).find?
      (fun i => ((((PlruPolicy.new 1 1).update 0 0).usage.getD 0 0) >>> i) &&& 1 == 0) =
      none := by
  decide

/-- C10 (amended): for at least two ways, after any PlruPolicy::update with
a way index below the way count, the usage bits of the touched set never
have all ways bits set, and the zero-bit search of get_victim succeeds
with a way below the way count whose usage bit is zero (the fall-through
branch is not used). -/
theorem plru_update_never_all_bits_set (p : PlruPolicy) (set way : Nat)
    (hw : 2 ≤ p.ways) (hway : way < p.ways) (hset : set < p.usage.length) :
    ((p.update set way).usage.getD set 0) &&& ((1 <<< p.ways) - 1) ≠ (1 <<< p.ways) - 1 ∧
    ∃ i, i < p.ways ∧
      (List.range p.ways).find?
        (fun j => (((p.update set way).usage.getD set 0) >>> j) &&& 1 == 0) = some i ∧
      (((p.update set way).usage.getD set 0) >>> i) &&& 1 = 0 := by
  have hshift : ∀ n : Nat, (1 <<< n) = 2 ^ n := by
    intro n; rw [Nat.shiftLeft_eq, one_mul]
  have hupd : (p.update set way).usage.getD set 0 =
      (if ((p.usage.getD set 0) ||| (1 <<< way)) &&& ((1 <<< p.ways) - 1) = (1 <<< p.ways) - 1
        then 1 <<< way
        else (p.usage.getD set 0) ||| (1 <<< way)) := by
    unfold PlruPolicy.update
    dsimp only
    rw [List.getD_eq_getElem?_getD, List.getElem?_set_self hset]
    rfl
  have hzero : ∃ j, j < p.ways ∧
      Nat.testBit ((p.update set way).usage.getD set 0) j = false := by
    rw [hupd]
    by_cases hc : ((p.usage.getD set 0) ||| (1 <<< way)) &&& ((1 <<< p.ways) - 1) =
        (1 <<< p.ways) - 1
    · rw [if_pos hc]
      refine ⟨if way = 0 then 1 else 0, ?_, ?_⟩
      · split <;> omega
      · rw [hshift]
        exact Nat.testBit_two_pow_of_ne (by split <;> omega)
    · rw [if_neg hc]
      by_contra hall
      push_neg at hall
      apply hc
      apply Nat.eq_of_testBit_eq
      intro j
      simp only [Nat.testBit_land, hshift, Nat.testBit_two_pow_sub_one]
      by_cases hj : j < p.ways
      · have hbt := hall j hj
        simp only [hshift, ne_eq, Bool.not_eq_false] at hbt
        rw [decide_eq_true hj, Bool.and_true]
        exact hbt
      · simp [hj]
  obtain ⟨j, hj, hbit⟩ := hzero
  constructor
  · intro he
    have hcongr := congrArg (fun x => Nat.testBit x j) he
    simp only [Nat.testBit_land] at hcongr
    rw [hbit, hshift, Nat.testBit_two_pow_sub_one, decide_eq_true hj] at hcongr
    simp at hcongr
  · have hsome : ((List.range p.ways).find?
        (fun j => (((p.update set way).usage.getD set 0) >>> j) &&& 1 == 0)).isSome = true := by
      rw [List.find?_isSome]
      exact ⟨j, List.mem_range.mpr hj, (shift_and_one_beq_zero_iff _ j).mpr hbit⟩
    obtain ⟨i, hfind⟩ := Option.isSome_iff_exists.mp hsome
    have hmem := List.mem_range.mp (List.mem_of_find?_eq_some hfind)
    have hpred := List.find?_some hfind
    have hzero2 := (shift_and_one_beq_zero_iff _ i).mp hpred
    refine ⟨i, hmem, hfind, ?_⟩
    rw [Nat.and_one_is_mod, Nat.shiftRight_eq_div_pow]
    rw [Nat.testBit_to_div_mod] at hzero2
    simp only [decide_eq_false_iff_not] at hzero2
    omega

/-- Witness for C10: a fresh 2-way PLRU set stays short of all-ones after
an update of way 1. -/
theorem plru_update_never_all_bits_set_witness :
    ((PlruPolicy.new 1 2).update 0 1).usage.getD 0 0 &&&
      ((1 <<< (PlruPolicy.new 1 2).ways) - 1) ≠ (1 <<< (PlruPolicy.new 1 2).ways) - 1 :=
  (plru_update_never_all_bits_set (PlruPolicy.new 1 2) 0 1 (by decide) (by decide)
    (by decide)).1

/-- C5: in the integer ALU, for the 64-bit forms and the sign-extended
32-bit `*W` forms alike, division by zero yields all-ones as the quotient
and the dividend as the remainder, and signed overflow (INT_MIN divided by
minus one) yields INT_MIN as the quotient and 0 as the remainder. -/
theorem alu_div_by_zero_and_overflow :
    (∀ a : Nat,
      alu .Div a 0 false = 2 ^ 64 - 1 ∧ alu .Divu a 0 false = 2 ^ 64 - 1 ∧
      alu .Rem a 0 false = a ∧ alu .Remu a 0 false = a) ∧
    (∀ a b : Nat, b % 2 ^ 32 = 0 →
      alu .Div a b true = 2 ^ 64 - 1 ∧ alu .Divu a b true = 2 ^ 64 - 1 ∧
      alu .Rem a b true = a ∧ alu .Remu a b true = a) ∧
    (alu .Div (2 ^ 63) (2 ^ 64 - 1) false = 2 ^ 63 ∧
      alu .Rem (2 ^ 63) (2 ^ 64 - 1) false = 0) ∧
    (∀ a b : Nat, a % 2 ^ 32 = 0x80000000 → b % 2 ^ 32 = 0xFFFFFFFF →
      alu .Div a b true = 0xFFFFFFFF80000000 ∧ alu .Rem a b true = 0) := by
  have hzero32 : ∀ b : Nat, b % 2 ^ 32 = 0 → toI32 b = 0 := by
    intro b hb
    unfold toI32
    rw [if_pos (by omega)]
    omega
  have hneg1 : i64ToU64 (-1) = 2 ^ 64 - 1 := by decide
  refine ⟨?_, ?_, ?_, ?_⟩
  · intro a
    exact ⟨hneg1, hneg1, rfl, rfl⟩
  · intro a b hb
    have h0 := hzero32 b hb
    refine ⟨?_, ?_, ?_, ?_⟩
    · rw [show alu .Div a b true =
          (if toI32 b = 0 then i64ToU64 (-1) else i32ToU64 (Int.tdiv (toI32 a) (toI32 b)))
          from rfl, if_pos h0]
      exact hneg1
    · rw [show alu .Divu a b true =
          (if toI32 b = 0 then i64ToU64 (-1) else (a % 2 ^ 32) / (b % 2 ^ 32))
          from rfl, if_pos h0]
      exact hneg1
    · rw [show alu .Rem a b true =
          (if toI32 b = 0 then a else i32ToU64 (Int.tmod (toI32 a) (toI32 b)))
          from rfl, if_pos h0]
    · rw [show alu .Remu a b true =
          (if toI32 b = 0 then a else (a % 2 ^ 32) % (b % 2 ^ 32))
          from rfl, if_pos h0]
  · constructor <;> decide
  · intro a b ha hb
    have ha32 : toI32 a = -2147483648 := by
      unfold toI32
      rw [if_neg (by omega)]
      omega
    have hb32 : toI32 b = -1 := by
      unfold toI32
      rw [if_neg (by omega)]
      omega
    have hbne : toI32 b ≠ 0 := by rw [hb32]; decide
    constructor
    · rw [show alu .Div a b true =
          (if toI32 b = 0 then i64ToU64 (-1) else i32ToU64 (Int.tdiv (toI32 a) (toI32 b)))
          from rfl, if_neg hbne, ha32, hb32]
      decide
    · rw [show alu .Rem a b true =
          (if toI32 b = 0 then a else i32ToU64 (Int.tmod (toI32 a) (toI32 b)))
          from rfl, if_neg hbne, ha32, hb32]
      decide

/-- Witness for C5: concrete instances of the four division corner cases. -/
theorem alu_div_by_zero_and_overflow_witness :
    alu .Div 5 0 false = 2 ^ 64 - 1 ∧
    alu .Rem 7 (3 * 2 ^ 32) true = 7 ∧
    alu .Div (2 ^ 63) (2 ^ 64 - 1) false = 2 ^ 63 ∧
    alu .Div 0x80000000 0xFFFFFFFF true = 0xFFFFFFFF80000000 := by
  have h := alu_div_by_zero_and_overflow
  exact ⟨(h.1 5).1, (h.2.1 7 (3 * 2 ^ 32) (by decide)).2.2.1, h.2.2.1.1,
    (h.2.2.2 0x80000000 0xFFFFFFFF (by decide) (by decide)).1⟩

/-- Helper: a bus read at an address no device covers returns 0 and leaves
the device list unchanged. -/
theorem busReadAux_unmapped {δ : Type} (D : DeviceOps δ) (f : δ → Nat → Nat × δ)
    (l : List δ) (paddr : Nat)
    (h : ∀ d ∈ l, ¬((D.address_range d).1 ≤ paddr ∧
      paddr < (D.address_range d).1 + (D.address_range d).2)) :
    busReadAux D f l paddr = (0, l) := by
  induction l with
  | nil => rfl
  | cons d rest ih =>
    have hd := h d (List.mem_cons_self d rest)
    have ht := fun x hx => h x (List.mem_cons_of_mem d hx)
    simp [busReadAux, if_neg hd, ih ht]

/-- Helper: a bus write at an address no device covers changes nothing. -/
theorem busWriteAux_unmapped {δ : Type} (D : DeviceOps δ) (f : δ → Nat → Nat → δ)
    (l : List δ) (paddr val : Nat)
    (h : ∀ d ∈ l, ¬((D.address_range d).1 ≤ paddr ∧
      paddr < (D.address_range d).1 + (D.address_range d).2)) :
    busWriteAux D f l paddr val = l := by
  induction l with
  | nil => rfl
  | cons d rest ih =>
    have hd := h d (List.mem_cons_self d rest)
    have ht := fun x hx => h x (List.mem_cons_of_mem d hx)
    simp [busWriteAux, if_neg hd, ih ht]

/-- C7: a physical address inside no registered device range reads as 0 at
every width, is a silent no-op for writes at every width, and is reported
invalid by is_valid_address; an address inside some device range is
reported valid. -/
theorem bus_unmapped_address_behaviour {δ : Type} (D : DeviceOps δ) (bus : Bus δ)
    (paddr v : Nat) :
    ((∀ d ∈ bus.devices, ¬((D.address_range d).1 ≤ paddr ∧
        paddr < (D.address_range d).1 + (D.address_range d).2)) →
      Bus.read_u8 D bus paddr = (0, bus) ∧ Bus.read_u16 D bus paddr = (0, bus) ∧
      Bus.read_u32 D bus paddr = (0, bus) ∧ Bus.read_u64 D bus paddr = (0, bus) ∧
      Bus.write_u8 D bus paddr v = bus ∧ Bus.write_u16 D bus paddr v = bus ∧
      Bus.write_u32 D bus paddr v = bus ∧ Bus.write_u64 D bus paddr v = bus ∧
      Bus.is_valid_address D bus paddr = false) ∧
    ((∃ d ∈ bus.devices, (D.address_range d).1 ≤ paddr ∧
        paddr < (D.address_range d).1 + (D.address_range d).2) →
      Bus.is_valid_address D bus paddr = true) := by
  constructor
  · intro h
    refine ⟨?_, ?_, ?_, ?_, ?_, ?_, ?_, ?_, ?_⟩
    · rw [Bus.read_u8, busReadAux_unmapped D _ _ _ h]
    · rw [Bus.read_u16, busReadAux_unmapped D _ _ _ h]
    · rw [Bus.read_u32, busReadAux_unmapped D _ _ _ h]
    · rw [Bus.read_u64, busReadAux_unmapped D _ _ _ h]
    · rw [Bus.write_u8, busWriteAux_unmapped D _ _ _ _ h]
    · rw [Bus.write_u16, busWriteAux_unmapped D _ _ _ _ h]
    · rw [Bus.write_u32, busWriteAux_unmapped D _ _ _ _ h]
    · rw [Bus.write_u64, busWriteAux_unmapped D _ _ _ _ h]
    · rw [Bus.is_valid_address]
      rw [← Bool.not_eq_true, List.any_eq_true]
      rintro ⟨d, hd, hp⟩
      exact h d hd (of_decide_eq_true hp)
  · rintro ⟨d, hd, hp⟩
    rw [Bus.is_valid_address, List.any_eq_true]
    exact ⟨d, hd, decide_eq_true hp⟩

/-- Witness for C7: on a one-device bus covering [100, 104), address 50
reads as zero with no state change, and address 102 is valid. -/
theorem bus_unmapped_address_behaviour_witness :
    Bus.read_u64 natDeviceOps natBusEx 50 = (0, natBusEx) ∧
    Bus.write_u64 natDeviceOps natBusEx 50 7 = natBusEx ∧
    Bus.is_valid_address natDeviceOps natBusEx 50 = false ∧
    Bus.is_valid_address natDeviceOps natBusEx 102 = true := by
  have h1 := bus_unmapped_address_behaviour natDeviceOps natBusEx 50 7
  have h2 := bus_unmapped_address_behaviour natDeviceOps natBusEx 102 7
  have hno : ∀ d ∈ natBusEx.devices, ¬((natDeviceOps.address_range d).1 ≤ 50 ∧
      50 < (natDeviceOps.address_range d).1 + (natDeviceOps.address_range d).2) := by
    intro d hd
    rw [show natBusEx.devices = [100] from rfl, List.mem_singleton] at hd
    subst hd
    decide
  have hu := h1.1 hno
  refine ⟨hu.2.2.2.1, hu.2.2.2.2.2.2.2.1, hu.2.2.2.2.2.2.2.2, ?_⟩
  exact h2.2 ⟨100, by decide, by decide⟩

/-- Helper: the low bit of a right shift is the tested bit. -/
theorem shiftRight_and_one_eq_testBit (n j : Nat) :
    (n >>> j) &&& 1 = (if n.testBit j then 1 else 0) := by
  rw [Nat.and_one_is_mod, Nat.shiftRight_eq_div_pow, Nat.testBit_to_div_mod]
  rcases Nat.mod_two_eq_zero_or_one (n / 2 ^ j) with h | h <;> simp [h]

/-- Helper: or-ing in bit k sets bit k. -/
theorem or_shift_bit_self (x k : Nat) : ((x ||| (1 <<< k)) >>> k) &&& 1 = 1 := by
  rw [shiftRight_and_one_eq_testBit, Nat.testBit_lor, Nat.shiftLeft_eq, one_mul,
    Nat.testBit_two_pow_self]
  simp

/-- Helper: or-ing in bit k leaves any other bit j unchanged. -/
theorem or_shift_bit_other (x k j : Nat) (h : k ≠ j) :
    ((x ||| (1 <<< k)) >>> j) &&& 1 = (x >>> j) &&& 1 := by
  rw [shiftRight_and_one_eq_testBit, shiftRight_and_one_eq_testBit, Nat.testBit_lor,
    Nat.shiftLeft_eq, one_mul, Nat.testBit_two_pow_of_ne h]
  simp

/-- Helper: or-ing in 64 sets bit 6. -/
theorem or64_bit6 (x : Nat) : ((x ||| 64) >>> 6) % 2 = 1 := by
  have h := or_shift_bit_self x 6
  rw [Nat.and_one_is_mod] at h
  simpa using h

/-- Helper: or-ing in 128 sets bit 7. -/
theorem or128_bit7 (x : Nat) : ((x ||| 128) >>> 7) % 2 = 1 := by
  have h := or_shift_bit_self x 7
  rw [Nat.and_one_is_mod] at h
  simpa using h

/-- Helper: or-ing in 128 leaves bit 6 unchanged. -/
theorem or128_bit6 (x : Nat) : ((x ||| 128) >>> 6) % 2 = (x >>> 6) % 2 := by
  have h := or_shift_bit_other x 7 6 (by omega)
  rw [Nat.and_one_is_mod, Nat.and_one_is_mod] at h
  simpa using h

/-- Helper: or-ing in 64 leaves bit 7 unchanged. -/
theorem or64_bit7 (x : Nat) : ((x ||| 64) >>> 7) % 2 = (x >>> 7) % 2 := by
  have h := or_shift_bit_other x 6 7 (by omega)
  rw [Nat.and_one_is_mod, Nat.and_one_is_mod] at h
  simpa using h

/-- Helper: down the walk, a successful walk returns a leaf whose PTE in
the final memory has A set, and has D set exactly when it was set before
or the access is a store. -/
theorem walkLevel_sets_A_and_D (acc : AccessType) (vaddr transit : Nat) :
    ∀ (level : Nat) (mem : Mem) (pt_addr cycles : Nat) (leaf : WalkLeaf) (mem2 : Mem),
      walkLevel acc vaddr transit level mem pt_addr cycles = (some leaf, mem2) →
      ((mem2 leaf.pteAddr) >>> 6) &&& 1 = 1 ∧
      (((mem2 leaf.pteAddr) >>> 7) &&& 1 = 1 ↔
        (((mem leaf.pteAddr) >>> 7) &&& 1 = 1 ∨ acc = AccessType.Write)) := by
  have leafCase : ∀ (mem : Mem) (pte_addr : Nat) (leaf : WalkLeaf) (mem2 : Mem)
      (cyc : Nat) (pd : Nat),
      leaf.pteAddr = pte_addr →
      (mem2 = if ((mem pte_addr) >>> 6) &&& 1 = 0 ∨
          (acc = AccessType.Write ∧ ((mem pte_addr) >>> 7) &&& 1 = 0) then
          (fun q => if q = pte_addr then
            (if acc = AccessType.Write ∧ ((mem pte_addr) >>> 7) &&& 1 = 0 then
              (if ((mem pte_addr) >>> 6) &&& 1 = 0 then (mem pte_addr) ||| (1 <<< 6)
                else mem pte_addr) ||| (1 <<< 7)
              else (if ((mem pte_addr) >>> 6) &&& 1 = 0 then (mem pte_addr) ||| (1 <<< 6)
                else mem pte_addr))
            else mem q)
        else mem) →
      cyc = cyc → pd = pd →
      ((mem2 leaf.pteAddr) >>> 6) &&& 1 = 1 ∧
      (((mem2 leaf.pteAddr) >>> 7) &&& 1 = 1 ↔
        (((mem leaf.pteAddr) >>> 7) &&& 1 = 1 ∨ acc = AccessType.Write)) := by
    intro mem pte_addr leaf mem2 cyc pd hpa hm _ _
    subst hpa
    have ha01 : (mem leaf.pteAddr >>> 6) % 2 = 0 ∨ (mem leaf.pteAddr >>> 6) % 2 = 1 := by
      omega
    have hd01 : (mem leaf.pteAddr >>> 7) % 2 = 0 ∨ (mem leaf.pteAddr >>> 7) % 2 = 1 := by
      omega
    by_cases hw : acc = AccessType.Write <;>
      rcases ha01 with ha | ha <;> rcases hd01 with hd | hd <;>
        simp [hm, Nat.and_one_is_mod, ha, hd, hw,
          or64_bit6, or64_bit7, or128_bit6, or128_bit7]
  intro level
  induction level with
  | zero =>
    intro mem pt_addr cycles leaf mem2 h
    rw [walkLevel] at h
    generalize hv : (if (0 : Nat) = 2 then vpn2 vaddr
      else if (0 : Nat) = 1 then vpn1 vaddr else vpn0 vaddr) = vpnsel at h
    dsimp only at h
    split at h
    · exact absurd h (by simp)
    · split at h
      · exact absurd h (by simp)
      · split at h
        · exact absurd h (by simp)
        · rw [Prod.mk.injEq, Option.some.injEq] at h
          obtain ⟨hleaf, hmem⟩ := h
          exact leafCase mem _ leaf mem2 0 0 (by rw [← hleaf]) (by rw [← hmem]) rfl rfl
  | succ l ih =>
    intro mem pt_addr cycles leaf mem2 h
    rw [walkLevel] at h
    generalize hv : (if l + 1 = 2 then vpn2 vaddr
      else if l + 1 = 1 then vpn1 vaddr else vpn0 vaddr) = vpnsel at h
    dsimp only at h
    split at h
    · exact absurd h (by simp)
    · split at h
      · exact ih mem _ _ leaf mem2 h
      · split at h
        · exact absurd h (by simp)
        · rw [Prod.mk.injEq, Option.some.injEq] at h
          obtain ⟨hleaf, hmem⟩ := h
          exact leafCase mem _ leaf mem2 0 0 (by rw [← hleaf]) (by rw [← hmem]) rfl rfl

/-- C4 (amended): for every Sv39 page-table walk that reaches a leaf PTE,
after the access the PTE stored in memory has its A bit set, and its D bit
is set iff the access was a store or the D bit was already set before the
access (a non-store access leaves D unchanged). -/
theorem ptWalk_sets_A_and_D (mem : Mem) (satp vaddr : Nat) (acc : AccessType)
    (transit : Nat) (leaf : WalkLeaf) (mem2 : Mem)
    (h : ptWalk mem satp vaddr acc transit = (some leaf, mem2)) :
    ((mem2 leaf.pteAddr) >>> 6) &&& 1 = 1 ∧
    (((mem2 leaf.pteAddr) >>> 7) &&& 1 = 1 ↔
      (((mem leaf.pteAddr) >>> 7) &&& 1 = 1 ∨ acc = AccessType.Write)) :=
  walkLevel_sets_A_and_D acc vaddr transit 2 mem _ 0 leaf mem2 h

/-- C4 counterexample: a read access through a leaf PTE whose D bit is
already set reaches the leaf, and after the access the stored PTE still
has D = 1 although the access was not a store, contradicting the claimed
iff between D and the access being a store. -/
theorem ptWalk_read_with_dirty_pte :
    (ptWalk memC4 0 0 AccessType.Read 1).1.isSome = true ∧
    ((((ptWalk memC4 0 0 AccessType.Read 1).2
        (((ptWalk memC4 0 0 AccessType.Read 1).1.getD default).pteAddr)) >>> 7) &&& 1 = 1) ∧
    AccessType.Read ≠ AccessType.Write := by
  refine ⟨?_, ?_, by decide⟩ <;> decide

/-- Witness for C4: the one-entry table walked with a read access keeps A
and D set in the stored PTE. -/
theorem ptWalk_sets_A_and_D_witness :
    ((memC4 0) >>> 6) &&& 1 = 1 ∧
    (((memC4 0) >>> 7) &&& 1 = 1 ↔
      (((memC4 0) >>> 7) &&& 1 = 1 ∨ AccessType.Read = AccessType.Write)) :=
  ptWalk_sets_A_and_D memC4 0 0 AccessType.Read 1 ⟨0, 0, 1⟩ memC4 rfl

/-- C3 counterexample: in a reachable cache state (three read accesses at
0, 64 and 128 from empty), address 128 is resident, the next access at 128
is a read hit with penalty 0, yet after the prefetcher-triggered installs
of that access the line of 128 is no longer resident. -/
theorem cache_read_hit_line_evicted_by_prefetch :
    prefetchCacheEx3.contains 128 = true ∧
    (prefetchCacheEx3.access lruOps nextLineOps 128 false 10).1 = (true, 0) ∧
    ((prefetchCacheEx3.access lruOps nextLineOps 128 false 10).2).contains 128 = false := by
  refine ⟨?_, ?_, ?_⟩ <;> decide

/-- C3 (amended): for every cache access on a line resident before the
access with a read access, the access is a hit and the returned penalty is
0; and when the cache has no prefetcher, the line is still resident after
the access (prefetch installs of the source may evict the hit line). -/
theorem cache_read_hit_zero_penalty (P : PolicyOps π) (F : PrefetchOps φ)
    (c : CacheSim π φ) (addr lat : Nat) (hres : c.contains addr = true) :
    (CacheSim.access P F c addr false lat).1 = (true, 0) ∧
    (c.prefetcher = none →
      ((CacheSim.access P F c addr false lat).2).contains addr = true) := by
  have hen : c.enabled = true := by
    rcases h : c.enabled with _ | _
    · rw [CacheSim.contains, h] at hres
      simp at hres
    · rfl
  rw [CacheSim.contains, hen] at hres
  simp only [Bool.not_true, Bool.false_eq_true, if_false] at hres
  have hsome : ((List.range c.ways).find? (fun i =>
      (c.lines.getD ((addr / c.line_bytes) % c.num_sets * c.ways + i) default).valid &&
        ((c.lines.getD ((addr / c.line_bytes) % c.num_sets * c.ways + i) default).tag ==
          addr / (c.line_bytes * c.num_sets)))).isSome = true := by
    rw [List.find?_isSome]
    rw [List.any_eq_true] at hres
    exact hres
  obtain ⟨i, hfi⟩ := Option.isSome_iff_exists.mp hsome
  simp only [List.getD_eq_getElem?_getD] at hfi hres
  have key1 : (CacheSim.access P F c addr false lat).1 = (true, 0) := by
    rw [CacheSim.access, hen]
    simp [hfi]
  refine ⟨key1, ?_⟩
  intro hp
  have key2 : (CacheSim.access P F c addr false lat).2 =
      { c with policy := P.update c.policy ((addr / c.line_bytes) % c.num_sets) i } := by
    rw [CacheSim.access, hen]
    simp [hfi, hp]
  rw [key2, CacheSim.contains]
  simp only [hen, Bool.not_true, Bool.false_eq_true, if_false,
    List.getD_eq_getElem?_getD]
  exact hres

/-- Witness for C3: a prefetcher-free one-line cache holding line 0 stays
resident across a read hit at 0, with penalty 0. -/
theorem cache_read_hit_zero_penalty_witness :
    (CacheSim.access lruOps nextLineOps noPrefetchCacheEx 0 false 10).1 = (true, 0) ∧
    ((CacheSim.access lruOps nextLineOps noPrefetchCacheEx 0 false 10).2).contains 0 = true := by
  have h := cache_read_hit_zero_penalty lruOps nextLineOps noPrefetchCacheEx 0 10 (by decide)
  exact ⟨h.1, h.2 rfl⟩
